import Mathlib

/-!
Verification of the pipeline-aggregation backend (`backend/src/routes/github.js`,
the top-level pipelines route, and `backend/src/utils/crypto.js`).

The remote GitHub API, the user store and the AES decryption routine are external
collaborators; they are modelled as oracle functions supplied to the embedded code.
Every embedded definition mirrors the corresponding JavaScript source line by line:
JS truthiness on strings is `≠ ""`, `axios` errors carry an optional HTTP status
(`e.response?.status`), and thrown/caught exceptions become `Except` values.
-/

/-- An axios-style error: `status` models `e.response?.status` (`none` for a
network-level failure with no response) and `msg` the resolved error message. -/
structure HttpError where
  status : Option Nat
  msg : String
deriving DecidableEq, Repr

/-- A repository record as consumed by the aggregation loop:
`name` is `repo.name`, `ownerLogin` models `repo.owner?.login`. -/
structure Repo where
  name : String
  ownerLogin : Option String
deriving DecidableEq, Repr

/-- A workflow record as returned by the workflow-listing endpoint. -/
structure Workflow where
  id : Nat
  name : String
  path : String
  state : String
  created_at : String
  updated_at : String
  html_url : String
deriving DecidableEq, Repr

/-- A raw workflow-run object as returned inside `workflow_runs`. -/
structure RawRun where
  id : Nat
  status : String
  conclusion : Option String
  event : String
  head_branch : String
  created_at : String
  updated_at : String
  html_url : String
  actorLogin : Option String
deriving DecidableEq, Repr

/-- The normalized run record built by `fetchLatestRun`. -/
structure Run where
  runId : Nat
  status : String
  conclusion : Option String
  event : String
  head_branch : String
  created_at : String
  updated_at : String
  url : String
  actor : Option String
deriving DecidableEq, Repr

/-- Oracle for the remote GitHub API, indexed by the bearer token each call
carries. `identityOk tok` is whether `GET /user` with `tok` returns 2xx;
the other fields are the repo / workflow / run listing endpoints. -/
structure GitHubApi where
  identityOk : String → Bool
  orgRepos : String → String → Except HttpError (List Repo)
  userRepos : String → String → Except HttpError (List Repo)
  workflows : String → String → String → Except HttpError (List Workflow)
  workflowRuns : String → String → String → Nat → Except HttpError (List RawRun)

/-- Oracle for the credential store and process environment used by
`ensureGitHubToken`: `findUserPatEnc uid` models
`(await User.findById(uid).lean())?.github?.patEnc || ''` (error = the lookup
threw), `decrypt` is `decrypt` from `utils/crypto.js` (`none` = JS `null`),
and `githubPAT` is `process.env.GITHUB_PAT` (`""` when unset). -/
structure AuthEnv where
  findUserPatEnc : String → Except String String
  decrypt : String → Option String
  githubPAT : String

/-- The request-local inputs to token resolution: `userId` as set by
`maybeAuth`, `headerToken` the `x-github-token` header (`""` when absent). -/
structure ReqAuth where
  userId : Option String
  headerToken : String
deriving DecidableEq, Repr

/-- Provenance of the resolved token (`source` in the source code). -/
inductive TokenSource where
  | db
  | header
  | env
deriving DecidableEq, Repr

/-- Outcome of the `ensureGitHubToken` middleware: either `req.githubToken`
is set and the chain continues, or the request is answered with 401. -/
inductive AuthOutcome where
  | ok (token : String) (source : TokenSource)
  | unauthorized (msg : String)
deriving DecidableEq, Repr

/-- Step 1 of `ensureGitHubToken`: the stored credential, if any. Mirrors the
`if (req.userId) { try { ... } catch ... }` block: a throwing lookup or a
failed decryption leaves `token` unset, and `if (pat)` is JS truthiness. -/
def dbCredential (env : AuthEnv) (req : ReqAuth) : Option String :=
  match req.userId with
  | none => none
  | some uid =>
    match env.findUserPatEnc uid with
    | .error _ => none
    | .ok enc =>
      match env.decrypt enc with
      | none => none
      | some pat => if pat = "" then none else some pat

/-- Steps 1-3 of `ensureGitHubToken`: the `(token, source)` pair selected by
the db → header → env chain, `none` when no source yields a token. -/
def selectToken (env : AuthEnv) (req : ReqAuth) : Option (String × TokenSource) :=
  match dbCredential env req with
  | some pat => some (pat, TokenSource.db)
  | none =>
    if req.headerToken ≠ "" then some (req.headerToken, TokenSource.header)
    else if env.githubPAT ≠ "" then some (env.githubPAT, TokenSource.env)
    else none

/-- The whole `ensureGitHubToken` middleware. The second component is the
trace of tokens sent to the identity self-test endpoint
(`GET https://api.github.com/user`). -/
def ensureGitHubToken (api : GitHubApi) (env : AuthEnv) (req : ReqAuth) :
    AuthOutcome × List String :=
  match selectToken env req with
  | none => (AuthOutcome.unauthorized "Missing token", [])
  | some (t, s) =>
    if api.identityOk t then (AuthOutcome.ok t s, [t])
    else (AuthOutcome.unauthorized "Bad credentials", [t])

/-- `fetchLatestRun(owner, repo, workflowId, token)`: fetch the runs page
(`per_page=1`), take `workflow_runs[0]`, return `null` when absent, else the
normalized projection. Errors of the underlying call propagate (the JS
function does not catch). -/
def fetchLatestRun (api : GitHubApi) (owner repo : String) (workflowId : Nat)
    (token : String) : Except HttpError (Option Run) :=
  match api.workflowRuns token owner repo workflowId with
  | .error e => .error e
  | .ok runs =>
    match runs.head? with
    | none => .ok none
    | some r => .ok (some {
        runId := r.id
        status := r.status
        conclusion := r.conclusion
        event := r.event
        head_branch := r.head_branch
        created_at := r.created_at
        updated_at := r.updated_at
        url := r.html_url
        actor := r.actorLogin })

/-- One element of the route's `pipelines` array. -/
structure Pipeline where
  owner : String
  repo : String
  workflowId : Nat
  name : String
  path : String
  state : String
  created_at : String
  updated_at : String
  url : String
  latest_run : Option Run
deriving DecidableEq, Repr

/-- The object pushed for one workflow (`pipelines.push({...})`). -/
def mkPipeline (owner repoName : String) (wf : Workflow) (lr : Option Run) : Pipeline :=
  { owner := owner
    repo := repoName
    workflowId := wf.id
    name := wf.name
    path := wf.path
    state := wf.state
    created_at := wf.created_at
    updated_at := wf.updated_at
    url := wf.html_url
    latest_run := lr }

/-- `repo.owner?.login || org` (JS truthiness: an empty login also falls
back to `org`). -/
def effectiveOwner (org : String) (repo : Repo) : String :=
  match repo.ownerLogin with
  | some l => if l = "" then org else l
  | none => org

/-- `[403, 404, 409].includes(e.response?.status)` — the per-repository
swallowed error classes (`undefined` status is not in the list). -/
def skippable (e : HttpError) : Bool :=
  e.status = some 403 || e.status = some 404 || e.status = some 409

/-- Outcome of processing one repository inside the aggregation loop:
ran to completion, `continue`d past a skippable error, or threw a fatal
error out of the loop. -/
inductive RepoOutcome where
  | completed
  | skipped
  | fatal (e : HttpError)
deriving DecidableEq, Repr

/-- Whether a `RepoOutcome` aborts the whole aggregation. -/
def RepoOutcome.isFatal : RepoOutcome → Bool
  | .fatal _ => true
  | _ => false

/-- The inner `for (const wf of wfRes.data.workflows)` loop: one pipeline is
pushed per workflow; `fetchLatestRun` is only invoked when `includeRuns`,
and a failure of it aborts the rest of this repository's workflows while
keeping the pipelines already pushed. Returns the pushed pipelines, the
error that escaped the loop (if any) and the number of `fetchLatestRun`
invocations. -/
def collectWorkflows (api : GitHubApi) (token owner repoName : String)
    (includeRuns : Bool) : List Workflow → List Pipeline × Option HttpError × Nat
  | [] => ([], none, 0)
  | wf :: wfs =>
    let fetched : Except HttpError (Option Run) × Nat :=
      if includeRuns then (fetchLatestRun api owner repoName wf.id token, 1)
      else (.ok none, 0)
    match fetched with
    | (.error e, c) => ([], some e, c)
    | (.ok lr, c) =>
      let rest := collectWorkflows api token owner repoName includeRuns wfs
      (mkPipeline owner repoName wf lr :: rest.1, rest.2.1, c + rest.2.2)

/-- The body of the per-repository `try { ... } catch (e) { ... }` block:
list the repository's workflows, push one pipeline per workflow; a caught
error with status 403/404/409 means `continue` (the repository is skipped,
pipelines already pushed are kept), any other error is rethrown. -/
def collectRepo (api : GitHubApi) (token org : String) (includeRuns : Bool)
    (repo : Repo) : List Pipeline × RepoOutcome × Nat :=
  let owner := effectiveOwner org repo
  match api.workflows token owner repo.name with
  | .error e =>
    ([], (if skippable e then RepoOutcome.skipped else RepoOutcome.fatal e), 0)
  | .ok wfs =>
    match collectWorkflows api token owner repo.name includeRuns wfs with
    | (ps, none, n) => (ps, RepoOutcome.completed, n)
    | (ps, some e, n) =>
      (ps, (if skippable e then RepoOutcome.skipped else RepoOutcome.fatal e), n)

/-- The outer `for (const repo of reposRes.data)` loop: accumulate pipelines
across repositories; a fatal error from any repository aborts the whole
aggregation. The `Nat` counts `fetchLatestRun` invocations. -/
def collectRepos (api : GitHubApi) (token org : String) (includeRuns : Bool) :
    List Repo → Except HttpError (List Pipeline) × Nat
  | [] => (.ok [], 0)
  | r :: rs =>
    match collectRepo api token org includeRuns r with
    | (_, RepoOutcome.fatal e, n) => (.error e, n)
    | (ps, _, n) =>
      match collectRepos api token org includeRuns rs with
      | (.error e, m) => (.error e, n + m)
      | (.ok rest, m) => (.ok (ps ++ rest), n + m)

/-- Repository enumeration with the org → user fallback: a 404 from the
organization-scoped listing triggers exactly one individual-account-scoped
listing, any other error is rethrown. The `Nat` counts user-scope calls. -/
def enumerateRepos (api : GitHubApi) (token org : String) :
    Except HttpError (List Repo) × Nat :=
  match api.orgRepos token org with
  | .ok rs => (.ok rs, 0)
  | .error e =>
    if e.status = some 404 then (api.userRepos token org, 1)
    else (.error e, 0)

/-- Full trace of one aggregation: the result (or the error that reached the
route's outer `catch`), the number of user-scope enumeration calls, and the
number of `fetchLatestRun` invocations. -/
structure AggTrace where
  result : Except HttpError (List Pipeline)
  userRepoCalls : Nat
  runFetchCalls : Nat
deriving Repr

/-- The aggregation body of the `/pipelines` route handler (everything inside
its outer `try`). -/
def aggregatePipelines (api : GitHubApi) (token org : String)
    (includeRuns : Bool) : AggTrace :=
  match enumerateRepos api token org with
  | (.error e, u) => { result := .error e, userRepoCalls := u, runFetchCalls := 0 }
  | (.ok repos, u) =>
    let c := collectRepos api token org includeRuns repos
    { result := c.1, userRepoCalls := u, runFetchCalls := c.2 }

/-- `.toLowerCase()` as a character-wise map over the string's characters. -/
def jsToLower (s : String) : String :=
  String.mk (s.data.map Char.toLower)

/-- `String(req.query.includeRuns ?? 'true').toLowerCase() !== 'false'`. -/
def parseIncludeRuns (q : Option String) : Bool :=
  jsToLower (q.getD "true") ≠ "false"

/-- HTTP responses produced by the pipeline routes. -/
inductive RouteResponse where
  | ok (pipelines : List Pipeline)
  | badRequest (msg : String)
  | unauthorized (msg : String)
  | errorStatus (status : Nat) (msg : String)
deriving DecidableEq, Repr

/-- The guarded `/github/pipelines` route: `maybeAuth` + `ensureGitHubToken`,
then the org check and the aggregation, mapping an escaped error to
`err.response?.status || 500`. The second component is the identity
self-test trace inherited from the middleware. -/
def pipelinesRoute (api : GitHubApi) (env : AuthEnv) (req : ReqAuth)
    (orgQ includeRunsQ : Option String) : RouteResponse × List String :=
  match ensureGitHubToken api env req with
  | (AuthOutcome.unauthorized m, tr) => (RouteResponse.unauthorized m, tr)
  | (AuthOutcome.ok token _, tr) =>
    let org := orgQ.getD ""
    if org = "" then (RouteResponse.badRequest "Organization name is required", tr)
    else
      match (aggregatePipelines api token org (parseIncludeRuns includeRunsQ)).result with
      | .ok ps => (RouteResponse.ok ps, tr)
      | .error e => (RouteResponse.errorStatus (e.status.getD 500) e.msg, tr)

/-- Token selection of the top-level `/pipelines` route:
`req.user?.accessToken || req.headers['x-github-token'] || process.env.GITHUB_PAT`
(JS truthiness on each). -/
def topRouteToken (oauthToken : Option String) (headerToken envPAT : String) :
    Option String :=
  [oauthToken.getD "", headerToken, envPAT].find? (fun t => t ≠ "")

/-- The top-level `/pipelines` route (the second route file): org check,
truthiness token chain with **no identity self-test**, the same aggregation
loop, and a dedicated 404 error message. The second component is the
identity self-test trace, which this route leaves empty — the source makes
no call to the identity endpoint. -/
def topPipelinesRoute (api : GitHubApi) (oauthToken : Option String)
    (headerToken envPAT : String) (orgQ includeRunsQ : Option String) :
    RouteResponse × List String :=
  let org := orgQ.getD ""
  if org = "" then (RouteResponse.badRequest "Organization is required", [])
  else
    match topRouteToken oauthToken headerToken envPAT with
    | none => (RouteResponse.unauthorized "GitHub token required (oauth/header/.env)", [])
    | some token =>
      match (aggregatePipelines api token org (parseIncludeRuns includeRunsQ)).result with
      | .ok ps => (RouteResponse.ok ps, [])
      | .error e =>
        if e.status = some 404 then
          (RouteResponse.errorStatus 404
            ("Organization or user '" ++ org ++ "' not found"), [])
        else (RouteResponse.errorStatus (e.status.getD 500) e.msg, [])

/-- One step record as projected by the jobs endpoint. -/
structure Step where
  number : Nat
  name : String
  status : String
  conclusion : Option String
  started_at : Option String
  completed_at : Option String
deriving DecidableEq, Repr

/-- One job record, with its ordered step list exactly as returned. -/
structure Job where
  id : Nat
  name : String
  status : String
  conclusion : Option String
  started_at : Option String
  completed_at : Option String
  html_url : String
  steps : List Step
deriving DecidableEq, Repr

/-- JS template-literal rendering of a nullable string: `null` prints as
the text `null`. -/
def jsShow : Option String → String
  | none => "null"
  | some s => s

/-- `x || '—'`: the em-dash fallback for a missing or empty timestamp. -/
def orDash : Option String → String
  | none => "—"
  | some s => if s = "" then "—" else s

/-- The first header line pushed by the `/job-log` handler. -/
def jobHeaderLine (job : Job) : String :=
  "Job: " ++ job.name ++ " | status: " ++ job.status ++
    " | conclusion: " ++ jsShow job.conclusion

/-- The second header line pushed by the `/job-log` handler. -/
def jobTimesLine (job : Job) : String :=
  "Started: " ++ orDash job.started_at ++ " | Completed: " ++ orDash job.completed_at

/-- The four lines pushed before the step loop. -/
def jobLogHeader (job : Job) : List String :=
  [jobHeaderLine job, jobTimesLine job, "", "Steps:"]

/-- The line pushed for one step inside `for (const s of job.steps || [])`. -/
def stepLine (s : Step) : String :=
  " - #" ++ toString s.number ++ " " ++ s.name ++ " | status: " ++ s.status ++
    " | conclusion: " ++ jsShow s.conclusion ++ " | started: " ++ orDash s.started_at ++
    " | completed: " ++ orDash s.completed_at

/-- The two lines pushed after the step loop. -/
def jobLogFooter : List String :=
  ["", "(Raw log not fetched: GH API returns ZIP; this is a synthesized summary text.)"]

/-- The `lines` array assembled by the `/job-log` handler: header pushes,
then one push per step in the order the jobs endpoint returned them,
then the trailing note. -/
def jobLogLines (job : Job) : List String :=
  let lines := jobLogHeader job
  let lines := job.steps.foldl (fun acc s => acc ++ [stepLine s]) lines
  lines ++ jobLogFooter

/-- The `/job-log` response text: locate the job by
`String(j.id) === String(jobId)`, placeholder text when absent, else the
joined summary lines. -/
def jobLogText (jobs : List Job) (jobId : String) : String :=
  match jobs.find? (fun j => toString j.id = jobId) with
  | none => "(No job found to assemble log)"
  | some job => String.intercalate "\n" (jobLogLines job)

/-- Modelled from the spec's words for comparison with `jobLogLines` (C7):
insertion of one step into a list sorted by ascending step number. -/
def insertStepByNumber (s : Step) : List Step → List Step
  | [] => [s]
  | t :: ts => if s.number ≤ t.number then s :: t :: ts else t :: insertStepByNumber s ts

/-- Modelled from the spec's words for comparison with `jobLogLines` (C7):
the step list re-ordered by ascending 1-based sequence number, the order the
claim says the synthesized step lines follow. -/
def stepsSortedByNumber : List Step → List Step
  | [] => []
  | s :: ss => insertStepByNumber s (stepsSortedByNumber ss)

/-- `mask` from `utils/crypto.js`: `null` for a falsy input, `'****'` for
length ≤ 4, else `'*'.repeat(s.length - 4) + s.slice(-4)`. -/
def mask (str : String) : Option String :=
  if str = "" then none
  else if str.length ≤ 4 then some "****"
  else some (String.mk (List.replicate (str.length - 4) '*' ++ str.data.drop (str.length - 4)))

/-! Concrete fixtures used by witness and counterexample theorems. -/

/-- A sample workflow. -/
def wfCI : Workflow :=
  { id := 7, name := "ci", path := ".github/workflows/ci.yml", state := "active",
    created_at := "2024-01-01", updated_at := "2024-01-02", html_url := "https://x/wf7" }

/-- A second sample workflow. -/
def wfDeploy : Workflow :=
  { id := 9, name := "deploy", path := ".github/workflows/deploy.yml", state := "active",
    created_at := "2024-01-03", updated_at := "2024-01-04", html_url := "https://x/wf9" }

/-- Sample repositories under the `acme` organization. -/
def repoA : Repo := { name := "alpha", ownerLogin := some "acme" }

/-- Second sample repository. -/
def repoB : Repo := { name := "beta", ownerLogin := some "acme" }

/-- Third sample repository. -/
def repoC : Repo := { name := "gamma", ownerLogin := some "acme" }

/-- A 404 axios error. -/
def err404 : HttpError := { status := some 404, msg := "Not Found" }

/-- A 500 axios error. -/
def err500 : HttpError := { status := some 500, msg := "Server Error" }

/-- An API oracle where every call succeeds: one repo, one workflow, no runs. -/
def apiAllOk : GitHubApi :=
  { identityOk := fun _ => true
    orgRepos := fun _ _ => .ok [repoA]
    userRepos := fun _ _ => .ok []
    workflows := fun _ _ _ => .ok [wfCI]
    workflowRuns := fun _ _ _ _ => .ok [] }

/-- Like `apiAllOk` but the identity endpoint rejects every token. -/
def apiNoIdentity : GitHubApi := { apiAllOk with identityOk := fun _ => false }

/-- Like `apiAllOk` but listing workflows of `beta` fails with 404. -/
def apiSkipBeta : GitHubApi :=
  { apiAllOk with workflows := fun _ _ rn => if rn = "beta" then .error err404 else .ok [wfCI] }

/-- Like `apiAllOk` but listing workflows of `beta` fails with 500. -/
def apiFatalBeta : GitHubApi :=
  { apiAllOk with workflows := fun _ _ rn => if rn = "beta" then .error err500 else .ok [wfCI] }

/-- Like `apiAllOk` but org-scoped enumeration 404s and user scope has `repoA`. -/
def apiOrg404 : GitHubApi :=
  { apiAllOk with orgRepos := fun _ _ => .error err404, userRepos := fun _ _ => .ok [repoA] }

/-- Like `apiAllOk` but org-scoped enumeration fails with 500. -/
def apiOrg500 : GitHubApi := { apiAllOk with orgRepos := fun _ _ => .error err500 }

/-- A store with a decryptable stored PAT, alongside header and env tokens. -/
def envStored : AuthEnv :=
  { findUserPatEnc := fun _ => .ok "payload", decrypt := fun _ => some "storedpat",
    githubPAT := "envpat" }

/-- A store whose lookup throws. -/
def envThrow : AuthEnv :=
  { findUserPatEnc := fun _ => .error "db down", decrypt := fun _ => some "x",
    githubPAT := "envpat" }

/-- A store whose payload fails to decrypt. -/
def envDecryptFail : AuthEnv :=
  { findUserPatEnc := fun _ => .ok "payload", decrypt := fun _ => none,
    githubPAT := "envpat" }

/-- A request with an authenticated principal and a header token. -/
def reqWithUser : ReqAuth := { userId := some "u1", headerToken := "headerpat" }

/-- An anonymous request carrying only a header token. -/
def reqHeaderOnly : ReqAuth := { userId := none, headerToken := "headerpat" }

/-- Step number 1 of the sample job. -/
def stepOne : Step :=
  { number := 1, name := "checkout", status := "completed", conclusion := some "success",
    started_at := some "t1", completed_at := some "t2" }

/-- Step number 2 of the sample job. -/
def stepTwo : Step :=
  { number := 2, name := "build", status := "completed", conclusion := some "success",
    started_at := some "t3", completed_at := some "t4" }

/-- A job whose source-returned step order is number 2 before number 1. -/
def unorderedJob : Job :=
  { id := 11, name := "CI job", status := "completed", conclusion := some "success",
    started_at := some "t0", completed_at := some "t5", html_url := "https://x/job",
    steps := [stepTwo, stepOne] }

/-! Claim theorems. -/

/-- C1: a stored, non-empty credential that passes the self-test is always
selected with provenance `db`, regardless of the header and environment
tokens; with no stored credential selected, resolution falls to the header
token, then the environment token; and with no source at all the middleware
answers 401 with the missing-token error. -/
theorem tokenResolution_order (api : GitHubApi) (env : AuthEnv) (req : ReqAuth) :
    (∀ uid enc pat, req.userId = some uid → env.findUserPatEnc uid = .ok enc →
      env.decrypt enc = some pat → pat ≠ "" → api.identityOk pat = true →
      ensureGitHubToken api env req = (AuthOutcome.ok pat TokenSource.db, [pat])) ∧
    (dbCredential env req = none → req.headerToken ≠ "" →
      selectToken env req = some (req.headerToken, TokenSource.header)) ∧
    (dbCredential env req = none → req.headerToken = "" → env.githubPAT ≠ "" →
      selectToken env req = some (env.githubPAT, TokenSource.env)) ∧
    (dbCredential env req = none → req.headerToken = "" → env.githubPAT = "" →
      ensureGitHubToken api env req = (AuthOutcome.unauthorized "Missing token", [])) := by
  refine ⟨?_, ?_, ?_, ?_⟩
  · intro uid enc pat hu hdb hdec hne hid
    have hdbc : dbCredential env req = some pat := by
      simp [dbCredential, hu, hdb, hdec, hne]
    simp [ensureGitHubToken, selectToken, hdbc, hid]
  · intro h1 h2
    simp [selectToken, h1, h2]
  · intro h1 h2 h3
    simp [selectToken, h1, h2, h3]
  · intro h1 h2 h3
    simp [ensureGitHubToken, selectToken, h1, h2, h3]

/-- C1 witness: with a stored valid credential plus header and env tokens
present, the stored one is selected; with no principal, the header token is
selected. -/
theorem tokenResolution_order_witness :
    ensureGitHubToken apiAllOk envStored reqWithUser =
      (AuthOutcome.ok "storedpat" TokenSource.db, ["storedpat"]) ∧
    selectToken envStored reqHeaderOnly = some ("headerpat", TokenSource.header) :=
  ⟨(tokenResolution_order apiAllOk envStored reqWithUser).1 "u1" "payload" "storedpat"
      rfl rfl rfl (by decide) rfl,
    (tokenResolution_order apiAllOk envStored reqHeaderOnly).2.1 rfl (by decide)⟩

/-- C2 (amended): in the `ensureGitHubToken` middleware, every token that is
handed to a route was first sent to the identity self-test endpoint; a
selected token that fails the self-test yields 401 with no fallthrough; in
particular a stored invalid credential fails the request and the header and
environment tokens are never tried (the self-test trace holds only the
stored token). The top-level pipelines route, by contrast, uses its token
without any self-test (see the counterexample). -/
theorem selfTest_gatesSelectedToken (api : GitHubApi) (env : AuthEnv) (req : ReqAuth) :
    (∀ t s tr, ensureGitHubToken api env req = (AuthOutcome.ok t s, tr) →
      tr = [t] ∧ api.identityOk t = true) ∧
    (∀ t s, selectToken env req = some (t, s) → api.identityOk t = false →
      ensureGitHubToken api env req = (AuthOutcome.unauthorized "Bad credentials", [t])) ∧
    (∀ pat, dbCredential env req = some pat → api.identityOk pat = false →
      ensureGitHubToken api env req = (AuthOutcome.unauthorized "Bad credentials", [pat])) := by
  refine ⟨?_, ?_, ?_⟩
  · intro t s tr h
    rcases hsel : selectToken env req with _ | ⟨t', s'⟩
    · simp [ensureGitHubToken, hsel] at h
    · by_cases hid : api.identityOk t'
      · simp [ensureGitHubToken, hsel, hid] at h
        obtain ⟨⟨ht, _⟩, htr⟩ := h
        subst ht
        exact ⟨htr.symm, hid⟩
      · simp [ensureGitHubToken, hsel, hid] at h
  · intro t s hsel hid
    simp [ensureGitHubToken, hsel, hid]
  · intro pat hdbc hid
    have hsel : selectToken env req = some (pat, TokenSource.db) := by
      simp [selectToken, hdbc]
    simp [ensureGitHubToken, hsel, hid]

/-- C2 witness: a stored credential that fails the self-test makes the
middleware answer 401 after testing exactly that token, although a header
token and an environment token are both present. -/
theorem selfTest_gatesSelectedToken_witness :
    ensureGitHubToken apiNoIdentity envStored reqWithUser =
      (AuthOutcome.unauthorized "Bad credentials", ["storedpat"]) :=
  (selfTest_gatesSelectedToken apiNoIdentity envStored reqWithUser).2.2 "storedpat"
    rfl rfl

/-- C2 counterexample: the top-level pipelines route selects the OAuth token
and serves the aggregation without a single identity self-test call — its
trace is empty even though the identity endpoint would have rejected the
token. -/
theorem topRoute_usesTokenWithoutSelfTest :
    topPipelinesRoute apiNoIdentity (some "oauthtok") "" "" (some "acme") none =
      (RouteResponse.ok [mkPipeline "acme" "alpha" wfCI none], []) ∧
    apiNoIdentity.identityOk "oauthtok" = false := by
  constructor
  · rfl
  · rfl

/-- C10: when the principal's store lookup throws, or the stored payload
fails to decrypt, resolution selects no stored credential and behaves
exactly as if the request had no principal — silently falling through to
the header and environment sources. -/
theorem dbFailure_fallsThrough (api : GitHubApi) (env : AuthEnv) (req : ReqAuth)
    (uid : String) (hu : req.userId = some uid)
    (h : (∃ m, env.findUserPatEnc uid = .error m) ∨
      (∃ enc, env.findUserPatEnc uid = .ok enc ∧ env.decrypt enc = none)) :
    dbCredential env req = none ∧
    ensureGitHubToken api env req =
      ensureGitHubToken api env { userId := none, headerToken := req.headerToken } := by
  have hdbc : dbCredential env req = none := by
    rcases h with ⟨m, hm⟩ | ⟨enc, henc, hdec⟩
    · simp [dbCredential, hu, hm]
    · simp [dbCredential, hu, henc, hdec]
  have hdbc2 : dbCredential env { userId := none, headerToken := req.headerToken } = none := by
    simp [dbCredential]
  exact ⟨hdbc, by simp [ensureGitHubToken, selectToken, hdbc, hdbc2]⟩

/-- C10 witness: with a throwing store lookup (and separately a failing
decryption) the authenticated request resolves exactly like the anonymous
one, here to the header token. -/
theorem dbFailure_fallsThrough_witness :
    ensureGitHubToken apiAllOk envThrow reqWithUser =
      ensureGitHubToken apiAllOk envThrow { userId := none, headerToken := "headerpat" } ∧
    ensureGitHubToken apiAllOk envDecryptFail reqWithUser =
      ensureGitHubToken apiAllOk envDecryptFail { userId := none, headerToken := "headerpat" } :=
  ⟨(dbFailure_fallsThrough apiAllOk envThrow reqWithUser "u1" rfl
      (Or.inl ⟨"db down", rfl⟩)).2,
    (dbFailure_fallsThrough apiAllOk envDecryptFail reqWithUser "u1" rfl
      (Or.inr ⟨"payload", rfl, rfl⟩)).2⟩

/-- A repository whose workflow listing fails with a skippable status is
`continue`d past: it contributes no pipelines and no run fetches. -/
theorem collectRepo_skip (api : GitHubApi) (token org : String) (ir : Bool)
    (r : Repo) (e : HttpError)
    (h : api.workflows token (effectiveOwner org r) r.name = .error e)
    (hs : skippable e = true) :
    collectRepo api token org ir r = ([], RepoOutcome.skipped, 0) := by
  simp [collectRepo, h, hs]

/-- A repository whose workflow listing fails with any other status throws
out of the aggregation loop. -/
theorem collectRepo_fatalListing (api : GitHubApi) (token org : String) (ir : Bool)
    (r : Repo) (e : HttpError)
    (h : api.workflows token (effectiveOwner org r) r.name = .error e)
    (hs : skippable e = false) :
    collectRepo api token org ir r = ([], RepoOutcome.fatal e, 0) := by
  simp [collectRepo, h, hs]

/-- C3: a repository `rk` whose workflow listing fails with 403/404/409 is
excluded from the aggregation exactly as if it were absent from the
enumeration — every other repository contributes in original order; a
workflow-listing failure of any other class (network, 5xx, rate limit)
aborts the whole aggregation, which propagates exactly that error once the
repositories before `rk` are non-fatal. -/
theorem workflowListing_isolation (api : GitHubApi) (token org : String) (ir : Bool)
    (l₁ l₂ : List Repo) (rk : Repo) (e : HttpError)
    (hk : api.workflows token (effectiveOwner org rk) rk.name = .error e) :
    (skippable e = true →
      collectRepos api token org ir (l₁ ++ rk :: l₂) =
        collectRepos api token org ir (l₁ ++ l₂)) ∧
    (skippable e = false →
      (∀ r ∈ l₁, ((collectRepo api token org ir r).2.1).isFatal = false) →
      (collectRepos api token org ir (l₁ ++ rk :: l₂)).1 = .error e) := by
  constructor
  · intro hs
    induction l₁ with
    | nil =>
      have hcr := collectRepo_skip api token org ir rk e hk hs
      rcases hrec : collectRepos api token org ir l₂ with ⟨res, m⟩
      cases res <;> simp [collectRepos, hcr, hrec]
    | cons r l₁ ih =>
      rcases hr : collectRepo api token org ir r with ⟨ps, oc, n⟩
      cases oc with
      | completed => simp [collectRepos, hr, ih]
      | skipped => simp [collectRepos, hr, ih]
      | fatal e₂ => simp [collectRepos, hr]
  · intro hs
    induction l₁ with
    | nil =>
      intro _
      have hcr := collectRepo_fatalListing api token org ir rk e hk hs
      simp [collectRepos, hcr]
    | cons r l₁ ih =>
      intro hnf
      have hmem : ((collectRepo api token org ir r).2.1).isFatal = false :=
        hnf r (by simp)
      have ih' := ih (fun r' hr' => hnf r' (by simp [hr']))
      rcases hr : collectRepo api token org ir r with ⟨ps, oc, n⟩
      rw [hr] at hmem
      cases oc with
      | completed =>
        rcases hrec : collectRepos api token org ir (l₁ ++ rk :: l₂) with ⟨res, m⟩
        rw [hrec] at ih'
        cases res with
        | error e₂ =>
          simp at ih'
          subst ih'
          simp [collectRepos, hr, hrec]
        | ok rest => simp at ih'
      | skipped =>
        rcases hrec : collectRepos api token org ir (l₁ ++ rk :: l₂) with ⟨res, m⟩
        rw [hrec] at ih'
        cases res with
        | error e₂ =>
          simp at ih'
          subst ih'
          simp [collectRepos, hr, hrec]
        | ok rest => simp at ih'
      | fatal e₂ => simp [RepoOutcome.isFatal] at hmem

/-- C3 witness: with `beta` 404ing on workflow listing, the result equals the
aggregation over `alpha, gamma` alone; with `beta` failing 500, the whole
aggregation returns that error. -/
theorem workflowListing_isolation_witness :
    collectRepos apiSkipBeta "tok" "acme" true ([repoA] ++ repoB :: [repoC]) =
      collectRepos apiSkipBeta "tok" "acme" true ([repoA] ++ [repoC]) ∧
    (collectRepos apiFatalBeta "tok" "acme" true ([repoA] ++ repoB :: [repoC])).1 =
      .error err500 :=
  ⟨(workflowListing_isolation apiSkipBeta "tok" "acme" true [repoA] [repoC] repoB err404
      rfl).1 (by decide),
    (workflowListing_isolation apiFatalBeta "tok" "acme" true [repoA] [repoC] repoB err500
      rfl).2 (by decide) (by decide)⟩

/-- C4: a 404 on the organization-scoped repository listing triggers exactly
one individual-account-scoped listing whose outcome becomes the
enumeration's outcome; any non-404 failure triggers no user-scope call and
propagates unchanged into the aggregation result. -/
theorem orgFallback_once (api : GitHubApi) (token org : String) (e : HttpError)
    (ir : Bool) :
    (api.orgRepos token org = .error e → e.status = some 404 →
      enumerateRepos api token org = (api.userRepos token org, 1)) ∧
    (api.orgRepos token org = .error e → e.status ≠ some 404 →
      enumerateRepos api token org = (.error e, 0) ∧
      (aggregatePipelines api token org ir).result = .error e) := by
  constructor
  · intro h h4
    simp [enumerateRepos, h, h4]
  · intro h h4
    have he : enumerateRepos api token org = (.error e, 0) := by
      simp [enumerateRepos, h, h4]
    exact ⟨he, by simp [aggregatePipelines, he]⟩

/-- C4 witness: a 404 on org scope falls back to the user-scope listing once;
a 500 on org scope performs no user-scope call and propagates. -/
theorem orgFallback_once_witness :
    enumerateRepos apiOrg404 "tok" "acme" = (apiOrg404.userRepos "tok" "acme", 1) ∧
    enumerateRepos apiOrg500 "tok" "acme" = (.error err500, 0) :=
  ⟨(orgFallback_once apiOrg404 "tok" "acme" err404 true).1 rfl rfl,
    ((orgFallback_once apiOrg500 "tok" "acme" err500 true).2 rfl (by decide)).1⟩

/-- With `includeRuns = false` each workflow contributes a pipeline with
`latest_run = null` and no run fetch happens. -/
theorem collectWorkflows_noRuns (api : GitHubApi) (token owner repoName : String)
    (wfs : List Workflow) :
    collectWorkflows api token owner repoName false wfs =
      (wfs.map (fun wf => mkPipeline owner repoName wf none), none, 0) := by
  induction wfs with
  | nil => rfl
  | cons wf wfs ih => simp [collectWorkflows, ih]

/-- With `includeRuns = false` a repository performs zero run fetches and
all its pipelines carry the absent-run marker. -/
theorem collectRepo_noRuns (api : GitHubApi) (token org : String) (r : Repo) :
    (collectRepo api token org false r).2.2 = 0 ∧
    ∀ p ∈ (collectRepo api token org false r).1, p.latest_run = none := by
  rcases h : api.workflows token (effectiveOwner org r) r.name with e | wfs
  · simp [collectRepo, h]
  · constructor
    · simp [collectRepo, h, collectWorkflows_noRuns]
    · intro p hp
      simp [collectRepo, h, collectWorkflows_noRuns] at hp
      obtain ⟨wf, _, hpw⟩ := hp
      rw [← hpw]
      rfl

/-- Aggregated over any repository list, `includeRuns = false` means zero run
fetches and absent-run markers throughout. -/
theorem collectRepos_noRuns (api : GitHubApi) (token org : String) (rs : List Repo) :
    (collectRepos api token org false rs).2 = 0 ∧
    ∀ ps, (collectRepos api token org false rs).1 = .ok ps →
      ∀ p ∈ ps, p.latest_run = none := by
  induction rs with
  | nil =>
    refine ⟨rfl, ?_⟩
    intro ps hps p hp
    simp [collectRepos] at hps
    subst hps
    simp at hp
  | cons r rs ih =>
    obtain ⟨ihc, ihp⟩ := ih
    obtain ⟨hc0, hpn⟩ := collectRepo_noRuns api token org r
    rcases hcr : collectRepo api token org false r with ⟨ps₀, oc, n⟩
    rw [hcr] at hc0 hpn
    simp only at hc0
    rcases hrec : collectRepos api token org false rs with ⟨res, m⟩
    rw [hrec] at ihc ihp
    simp only at ihc
    cases oc with
    | fatal e =>
      refine ⟨by simp [collectRepos, hcr, hc0], ?_⟩
      intro ps hps
      simp [collectRepos, hcr] at hps
    | completed =>
      cases res with
      | error e =>
        refine ⟨by simp [collectRepos, hcr, hrec, hc0, ihc], ?_⟩
        intro ps hps
        simp [collectRepos, hcr, hrec] at hps
      | ok rest =>
        refine ⟨by simp [collectRepos, hcr, hrec, hc0, ihc], ?_⟩
        intro ps hps
        simp [collectRepos, hcr, hrec] at hps
        subst hps
        intro p hp
        rcases List.mem_append.mp hp with hmem | hmem
        · exact hpn p hmem
        · exact ihp rest rfl p hmem
    | skipped =>
      cases res with
      | error e =>
        refine ⟨by simp [collectRepos, hcr, hrec, hc0, ihc], ?_⟩
        intro ps hps
        simp [collectRepos, hcr, hrec] at hps
      | ok rest =>
        refine ⟨by simp [collectRepos, hcr, hrec, hc0, ihc], ?_⟩
        intro ps hps
        simp [collectRepos, hcr, hrec] at hps
        subst hps
        intro p hp
        rcases List.mem_append.mp hp with hmem | hmem
        · exact hpn p hmem
        · exact ihp rest rfl p hmem

/-- C5: a request with `includeRuns=false` (the query string parses to
`false`) performs zero run-status fetches and every emitted pipeline
carries the explicit absent-run marker. -/
theorem includeRunsFalse_noRunFetch (api : GitHubApi) (token org : String) :
    parseIncludeRuns (some "false") = false ∧
    (aggregatePipelines api token org false).runFetchCalls = 0 ∧
    ∀ ps, (aggregatePipelines api token org false).result = .ok ps →
      ∀ p ∈ ps, p.latest_run = none := by
  refine ⟨by decide, ?_, ?_⟩
  · rcases henum : enumerateRepos api token org with ⟨res, u⟩
    cases res with
    | error e => simp [aggregatePipelines, henum]
    | ok repos =>
      simp [aggregatePipelines, henum]
      exact (collectRepos_noRuns api token org repos).1
  · rcases henum : enumerateRepos api token org with ⟨res, u⟩
    cases res with
    | error e => simp [aggregatePipelines, henum]
    | ok repos =>
      simp [aggregatePipelines, henum]
      intro ps hps
      exact (collectRepos_noRuns api token org repos).2 ps hps

/-- C5 witness: on a concrete aggregation with one repository and one
workflow, `includeRuns=false` yields zero run fetches and a null
`latest_run` on the emitted pipeline. -/
theorem includeRunsFalse_noRunFetch_witness :
    (aggregatePipelines apiAllOk "tok" "acme" false).runFetchCalls = 0 ∧
    (mkPipeline "acme" "alpha" wfCI none).latest_run = none :=
  ⟨(includeRunsFalse_noRunFetch apiAllOk "tok" "acme").2.1,
    (includeRunsFalse_noRunFetch apiAllOk "tok" "acme").2.2
      [mkPipeline "acme" "alpha" wfCI none] rfl (mkPipeline "acme" "alpha" wfCI none)
      (by simp)⟩

/-- All workflows of a repository whose run listings are empty produce
pipelines with the absent-run marker, one run fetch each. -/
theorem collectWorkflows_emptyRuns (api : GitHubApi) (token owner repoName : String)
    (wfs : List Workflow)
    (h : ∀ wf ∈ wfs, api.workflowRuns token owner repoName wf.id = .ok []) :
    collectWorkflows api token owner repoName true wfs =
      (wfs.map (fun wf => mkPipeline owner repoName wf none), none, wfs.length) := by
  induction wfs with
  | nil => rfl
  | cons wf wfs ih =>
    have h1 : api.workflowRuns token owner repoName wf.id = .ok [] := h wf (by simp)
    have ih' := ih (fun w hw => h w (by simp [hw]))
    simp [collectWorkflows, fetchLatestRun, h1, ih', Nat.add_comm]

/-- C6: a workflow with zero runs yields an explicit absence from
`fetchLatestRun`, never an error, and a repository whose workflows all have
zero runs still emits one pipeline per workflow, each with the absent-run
marker. -/
theorem zeroRuns_absentMarker (api : GitHubApi) (token org owner repoName : String)
    (workflowId : Nat) (r : Repo) (wfs : List Workflow) :
    (api.workflowRuns token owner repoName workflowId = .ok [] →
      fetchLatestRun api owner repoName workflowId token = .ok none) ∧
    (api.workflows token (effectiveOwner org r) r.name = .ok wfs →
      (∀ wf ∈ wfs, api.workflowRuns token (effectiveOwner org r) r.name wf.id = .ok []) →
      collectRepo api token org true r =
        (wfs.map (fun wf => mkPipeline (effectiveOwner org r) r.name wf none),
          RepoOutcome.completed, wfs.length)) := by
  constructor
  · intro h
    simp [fetchLatestRun, h]
  · intro hwf hruns
    simp [collectRepo, hwf, collectWorkflows_emptyRuns api token (effectiveOwner org r)
      r.name wfs hruns]

/-- C6 witness: the fixture workflow has zero runs; its fetch returns the
explicit absence and the repository still emits its pipeline with
`latest_run = null`. -/
theorem zeroRuns_absentMarker_witness :
    fetchLatestRun apiAllOk "acme" "alpha" 7 "tok" = .ok none ∧
    collectRepo apiAllOk "tok" "acme" true repoA =
      ([mkPipeline "acme" "alpha" wfCI none], RepoOutcome.completed, 1) :=
  ⟨(zeroRuns_absentMarker apiAllOk "tok" "acme" "acme" "alpha" 7 repoA [wfCI]).1 rfl,
    (zeroRuns_absentMarker apiAllOk "tok" "acme" "acme" "alpha" 7 repoA [wfCI]).2 rfl
      (fun _ _ => rfl)⟩

/-- The step loop of the `/job-log` handler pushes exactly one line per step,
in iteration order. -/
theorem foldl_pushStepLines (l : List Step) (init : List String) :
    l.foldl (fun acc s => acc ++ [stepLine s]) init = init ++ l.map stepLine := by
  induction l generalizing init with
  | nil => simp
  | cons s l ih => simp [List.foldl, ih]

/-- C7 (amended): for a job with N steps the synthesized log is the
name/status/conclusion/timestamps header, then exactly N step lines in the
order the source returned the steps, then the note that raw logs are not
fetched. -/
theorem jobLog_structure (job : Job) :
    jobLogLines job = jobLogHeader job ++ job.steps.map stepLine ++ jobLogFooter ∧
    (job.steps.map stepLine).length = job.steps.length := by
  refine ⟨?_, by simp⟩
  simp only [jobLogLines, foldl_pushStepLines]

/-- C7 counterexample: for a job whose source returns step number 2 before
step number 1, the synthesized lines keep the source order, so they are not
ordered by the steps' 1-based sequence numbers. -/
theorem jobLog_notSortedByNumber :
    jobLogLines unorderedJob ≠
      jobLogHeader unorderedJob ++
        (stepsSortedByNumber unorderedJob.steps).map stepLine ++ jobLogFooter := by
  decide

/-- Every pipeline pushed by the workflow loop carries the owner and
repository name the loop was invoked with. -/
theorem collectWorkflows_ownerRepo (api : GitHubApi) (token owner repoName : String)
    (ir : Bool) (wfs : List Workflow) :
    ∀ p ∈ (collectWorkflows api token owner repoName ir wfs).1,
      p.owner = owner ∧ p.repo = repoName := by
  cases ir with
  | true =>
    induction wfs with
    | nil => simp [collectWorkflows]
    | cons wf wfs ih =>
      rcases hf : fetchLatestRun api owner repoName wf.id token with e | lr
      · simp [collectWorkflows, hf]
      · intro p hp
        simp [collectWorkflows, hf] at hp
        rcases hp with hp | hp
        · subst hp
          exact ⟨rfl, rfl⟩
        · exact ih p hp
  | false =>
    induction wfs with
    | nil => simp [collectWorkflows]
    | cons wf wfs ih =>
      intro p hp
      simp [collectWorkflows] at hp
      rcases hp with hp | hp
      · subst hp
        exact ⟨rfl, rfl⟩
      · exact ih p hp

/-- The workflow identifiers of the pushed pipelines form a sublist of the
listed workflows' identifiers (the loop may stop early on a run-fetch
error, never reorders and never duplicates). -/
theorem collectWorkflows_ids_sublist (api : GitHubApi) (token owner repoName : String)
    (ir : Bool) (wfs : List Workflow) :
    ((collectWorkflows api token owner repoName ir wfs).1.map Pipeline.workflowId).Sublist
      (wfs.map Workflow.id) := by
  cases ir with
  | true =>
    induction wfs with
    | nil => simp [collectWorkflows]
    | cons wf wfs ih =>
      rcases hf : fetchLatestRun api owner repoName wf.id token with e | lr
      · simp [collectWorkflows, hf]
      · simpa [collectWorkflows, hf, mkPipeline] using ih.cons₂ wf.id
  | false =>
    induction wfs with
    | nil => simp [collectWorkflows]
    | cons wf wfs ih =>
      simpa [collectWorkflows, mkPipeline] using ih.cons₂ wf.id

/-- On a successful workflow listing the repository's pipeline block is
exactly the workflow loop's output. -/
theorem collectRepo_fst_ok (api : GitHubApi) (token org : String) (ir : Bool)
    (r : Repo) (wfs : List Workflow)
    (h : api.workflows token (effectiveOwner org r) r.name = .ok wfs) :
    (collectRepo api token org ir r).1 =
      (collectWorkflows api token (effectiveOwner org r) r.name ir wfs).1 := by
  rcases hcw : collectWorkflows api token (effectiveOwner org r) r.name ir wfs
    with ⟨ps, oe, n⟩
  cases oe <;> simp [collectRepo, h, hcw]

/-- Every pipeline in a repository's block names that repository. -/
theorem collectRepo_ownerRepo (api : GitHubApi) (token org : String) (ir : Bool)
    (r : Repo) :
    ∀ p ∈ (collectRepo api token org ir r).1,
      p.owner = effectiveOwner org r ∧ p.repo = r.name := by
  rcases h : api.workflows token (effectiveOwner org r) r.name with e | wfs
  · simp [collectRepo, h]
  · rw [collectRepo_fst_ok api token org ir r wfs h]
    exact collectWorkflows_ownerRepo api token (effectiveOwner org r) r.name ir wfs

/-- If the repository's workflow listing carries no duplicate identifiers,
neither does its pipeline block. -/
theorem collectRepo_ids_nodup (api : GitHubApi) (token org : String) (ir : Bool)
    (r : Repo)
    (hwf : ∀ wfs, api.workflows token (effectiveOwner org r) r.name = .ok wfs →
      (wfs.map Workflow.id).Nodup) :
    ((collectRepo api token org ir r).1.map Pipeline.workflowId).Nodup := by
  rcases h : api.workflows token (effectiveOwner org r) r.name with e | wfs
  · simp [collectRepo, h]
  · rw [collectRepo_fst_ok api token org ir r wfs h]
    exact (hwf wfs h).sublist
      (collectWorkflows_ids_sublist api token (effectiveOwner org r) r.name ir wfs)

/-- A successful aggregation is the concatenation of the per-repository
blocks in enumeration order. -/
theorem collectRepos_ok_flatten (api : GitHubApi) (token org : String) (ir : Bool)
    (rs : List Repo) (ps : List Pipeline)
    (h : (collectRepos api token org ir rs).1 = .ok ps) :
    ps = (rs.map (fun r => (collectRepo api token org ir r).1)).flatten := by
  induction rs generalizing ps with
  | nil =>
    simp [collectRepos] at h
    simp [h.symm]
  | cons r rs ih =>
    rcases hr : collectRepo api token org ir r with ⟨ps₀, oc, n⟩
    rcases hrec : collectRepos api token org ir rs with ⟨res, m⟩
    cases oc with
    | fatal e => simp [collectRepos, hr] at h
    | completed =>
      cases res with
      | error e => simp [collectRepos, hr, hrec] at h
      | ok rest =>
        simp [collectRepos, hr, hrec] at h
        have hrest : rest = (rs.map (fun r => (collectRepo api token org ir r).1)).flatten :=
          ih rest (by rw [hrec])
        simp [h.symm, hr, hrest]
    | skipped =>
      cases res with
      | error e => simp [collectRepos, hr, hrec] at h
      | ok rest =>
        simp [collectRepos, hr, hrec] at h
        have hrest : rest = (rs.map (fun r => (collectRepo api token org ir r).1)).flatten :=
          ih rest (by rw [hrec])
        simp [h.symm, hr, hrest]

/-- The `(owner, repo, workflowId)` triples of one repository's block are
distinct whenever the workflow listing's identifiers are. -/
theorem collectRepo_triples_nodup (api : GitHubApi) (token org : String) (ir : Bool)
    (r : Repo)
    (hwf : ∀ wfs, api.workflows token (effectiveOwner org r) r.name = .ok wfs →
      (wfs.map Workflow.id).Nodup) :
    ((collectRepo api token org ir r).1.map
      (fun p => (p.owner, p.repo, p.workflowId))).Nodup := by
  apply List.Nodup.of_map (fun t : String × String × Nat => t.2.2)
  rw [List.map_map]
  exact collectRepo_ids_nodup api token org ir r hwf

/-- C8: under the claim's assumptions — the enumeration lists each
repository once and every successful workflow listing carries distinct
workflow identifiers — the `(owner, repo, workflowId)` triples of the
aggregation result are pairwise distinct. -/
theorem pipelineTriples_unique (api : GitHubApi) (token org : String) (ir : Bool)
    (repos : List Repo) (ps : List Pipeline)
    (henum : (enumerateRepos api token org).1 = .ok repos)
    (hrep : (repos.map (fun r => (effectiveOwner org r, r.name))).Nodup)
    (hwf : ∀ r ∈ repos, ∀ wfs,
      api.workflows token (effectiveOwner org r) r.name = .ok wfs →
      (wfs.map Workflow.id).Nodup)
    (hok : (aggregatePipelines api token org ir).result = .ok ps) :
    (ps.map (fun p => (p.owner, p.repo, p.workflowId))).Nodup := by
  rcases hE : enumerateRepos api token org with ⟨res, u⟩
  rw [hE] at henum
  simp only at henum
  subst henum
  simp only [aggregatePipelines, hE] at hok
  have hflat := collectRepos_ok_flatten api token org ir repos ps hok
  subst hflat
  rw [List.map_flatten, List.map_map, List.nodup_flatten]
  constructor
  · intro bl hbl
    simp only [List.mem_map, Function.comp] at hbl
    obtain ⟨r, hr, hbl⟩ := hbl
    subst hbl
    exact collectRepo_triples_nodup api token org ir r (fun wfs h => hwf r hr wfs h)
  · rw [List.pairwise_map]
    have hpair : repos.Pairwise (fun a b =>
        (effectiveOwner org a, a.name) ≠ (effectiveOwner org b, b.name)) :=
      List.pairwise_map.mp hrep
    refine hpair.imp ?_
    intro a b hab
    intro x hxa hxb
    simp only [Function.comp, List.mem_map] at hxa hxb
    obtain ⟨p, hp, hpx⟩ := hxa
    obtain ⟨q, hq, hqx⟩ := hxb
    obtain ⟨hpo, hpr⟩ := collectRepo_ownerRepo api token org ir a p hp
    obtain ⟨hqo, hqr⟩ := collectRepo_ownerRepo api token org ir b q hq
    apply hab
    have hx : (p.owner, p.repo, p.workflowId) = (q.owner, q.repo, q.workflowId) := by
      rw [hpx, hqx]
    have h1 : p.owner = q.owner := congrArg Prod.fst hx
    have h2 : p.repo = q.repo := congrArg (fun t => t.2.1) hx
    rw [← hpo, ← hpr, h1, h2, hqo, hqr]

/-- C8 witness: on the concrete one-repository aggregation the emitted
triples are distinct. -/
theorem pipelineTriples_unique_witness :
    ([mkPipeline "acme" "alpha" wfCI none].map
      (fun p => (p.owner, p.repo, p.workflowId))).Nodup :=
  pipelineTriples_unique apiAllOk "tok" "acme" true [repoA]
    [mkPipeline "acme" "alpha" wfCI none] rfl (by decide)
    (by
      intro r hr wfs hwfs
      simp [apiAllOk] at hwfs
      subst hwfs
      decide)
    rfl

/-- C9 counterexample: masking `abcdefgh` yields `****efgh`, whose first
character is not the credential's first character — the first characters
are redacted, not shown. -/
theorem mask_hidesFirstCharacter :
    mask "abcdefgh" = some "****efgh" ∧
    ("****efgh" : String).data.head? ≠ ("abcdefgh" : String).data.head? := by
  decide

/-- C9 (amended): for a non-empty credential the mask redacts everything but
the last four characters: length at most four masks to exactly `****`, and
otherwise the mask keeps the length, turns all leading characters into
asterisks, preserves exactly the last four, and differs from the raw
credential whenever the credential does not itself start with an
asterisk. -/
theorem mask_redactsAllButLastFour (s : String) (h : s ≠ "") :
    (s.length ≤ 4 → mask s = some "****") ∧
    (∀ m, 4 < s.length → mask s = some m →
      m.length = s.length ∧
      m.data.take (s.length - 4) = List.replicate (s.length - 4) '*' ∧
      m.data.drop (s.length - 4) = s.data.drop (s.length - 4) ∧
      (s.data.head? ≠ some '*' → m ≠ s)) := by
  constructor
  · intro hle
    simp [mask, h, hle]
  · intro m hlt hm
    have hnle : ¬ s.length ≤ 4 := by omega
    simp only [mask, if_neg h, if_neg hnle, Option.some.injEq] at hm
    have hdata : m.data = List.replicate (s.length - 4) '*' ++ s.data.drop (s.length - 4) := by
      rw [← hm]
    have hslen : s.data.length = s.length := rfl
    have hmlen : m.length = s.length := by
      show m.data.length = s.length
      rw [hdata]
      simp only [List.length_append, List.length_replicate, List.length_drop, hslen]
      omega
    refine ⟨hmlen, ?_, ?_, ?_⟩
    · rw [hdata]
      have ht := List.take_left (List.replicate (s.length - 4) '*') (s.data.drop (s.length - 4))
      rwa [List.length_replicate] at ht
    · rw [hdata]
      have ht := List.drop_left (List.replicate (s.length - 4) '*') (s.data.drop (s.length - 4))
      rwa [List.length_replicate] at ht
    · intro hhead heq
      apply hhead
      have hd : s.data = List.replicate (s.length - 4) '*' ++ s.data.drop (s.length - 4) := by
        conv_lhs => rw [← heq]
        exact hdata
      have hk : s.length - 4 = (s.length - 5) + 1 := by omega
      rw [hd, hk, List.replicate_succ]
      rfl

/-- C9 witness: the mask of `abcdefgh` is not the raw credential. -/
theorem mask_redactsAllButLastFour_witness :
    ("****efgh" : String) ≠ "abcdefgh" :=
  ((mask_redactsAllButLastFour "abcdefgh" (by decide)).2 "****efgh" (by decide)
      (by decide)).2.2.2 (by decide)
